import Mathlib

set_option maxRecDepth 8000

/-!
# washington-law-mcp: verification of the ingestion and query layer

Shallow embedding of the relevant parts of the repository:

* the SQLite court_rules / rcw tables and their FTS5 shadow tables, with the
  trigger-based synchronization from src/database/init.ts, and the
  INSERT OR REPLACE write path used by every scraper;
* the read-only query layer of LawDatabase (getCourtRule, listCourtRules,
  searchLaws, listRCWTitles, listRCWChapters, listRCWSections);
* the citation/rule-number normalization and deduplication steps of the
  scrapers (court-rules-scraper.ts, ralj-scraper.ts, rpc-scraper.ts);
* the tool-dispatch boundary of the MCP server (index.ts).

Tables are modelled as lists of rows; machine floats (FTS5 rank values) are
modelled as integers, which preserves the ordering/absolute-value logic under
scrutiny. JS Array.prototype.sort with a numeric comparator is modelled by
insertion sort (both are stable sorts realizing the comparator order).
-/

/-! ## Numeric helper semantics -/

/-- Value of a decimal digit character. -/
def digitVal (c : Char) : Nat := c.toNat - 48

/-- JS parseInt restricted to all-digit strings, which is the only way the
scrapers invoke it (every argument is a regex capture of one or more digits). -/
def parseIntDigits (s : String) : Nat :=
  s.data.foldl (fun n c => n * 10 + digitVal c) 0

/-- Value of the longest leading digit run of a character list; 0 when there
is none. -/
def digitsVal (l : List Char) : Nat :=
  (l.takeWhile Char.isDigit).foldl (fun n c => n * 10 + digitVal c) 0

/-- SQLite CAST(text AS INTEGER): skip leading whitespace, read an optional
sign and then the longest digit run; a text with no leading integer casts
to 0. -/
def castTextToInt (s : String) : Int :=
  match s.data.dropWhile Char.isWhitespace with
  | '-' :: rest => -(digitsVal rest : Int)
  | '+' :: rest => (digitsVal rest : Int)
  | l => (digitsVal l : Int)

/-- ORDER BY key sort: SQLite sorts the result rows by the computed key.
Insertion sort realizes exactly the comparator order; ties are broken by an
order SQLite leaves unspecified. -/
def sortByKey {α β : Type} [LinearOrder β] (k : α → β) (l : List α) : List α :=
  @List.insertionSort α (fun a b => k a ≤ k b)
    (fun a b => inferInstanceAs (Decidable (k a ≤ k b))) l

theorem sorted_sortByKey {α β : Type} [LinearOrder β] (k : α → β) (l : List α) :
    (sortByKey k l).Sorted (fun a b => k a ≤ k b) := by
  haveI : IsTotal α (fun a b => k a ≤ k b) := ⟨fun a b => le_total (k a) (k b)⟩
  haveI : IsTrans α (fun a b => k a ≤ k b) := ⟨fun _ _ _ h₁ h₂ => le_trans h₁ h₂⟩
  exact List.sorted_insertionSort _ _

/-! ## The court_rules store (src/database/init.ts, addCourtRulesTables)

court_rules has id INTEGER PRIMARY KEY AUTOINCREMENT and
UNIQUE(rule_set, rule_number); court_rules_fts is an external-content FTS5
table kept in sync by the triggers court_rules_ai / court_rules_ad /
court_rules_au. We model the FTS table charitably as a plain table of rows
keyed by rowid (ignoring the additional external-content subtleties of FTS5,
which only make the synchronization worse). -/

structure CourtRuleRow where
  id : Nat
  ruleSet : String
  ruleNumber : String
  ruleName : String
  fullText : String
deriving DecidableEq

structure CourtRuleFtsRow where
  rowid : Nat
  ruleSet : String
  ruleNumber : String
  ruleName : String
  fullText : String
deriving DecidableEq

structure CourtRulesDb where
  rows : List CourtRuleRow
  fts : List CourtRuleFtsRow
  nextId : Nat
deriving DecidableEq

/-- A fresh database: AUTOINCREMENT ids start at 1. -/
def emptyCourtRulesDb : CourtRulesDb := ⟨[], [], 1⟩

def keyMatches (rs rn : String) (r : CourtRuleRow) : Bool :=
  r.ruleSet == rs && r.ruleNumber == rn

/--
The single write path of every court-rule scraper
(court-rules-scraper.ts / ralj-scraper.ts / rpc-scraper.ts insertStmt):

INSERT OR REPLACE INTO court_rules (rule_set, rule_number, rule_name,
full_text, updated_at) VALUES (?, ?, ?, ?, CURRENT_TIMESTAMP)

SQLite REPLACE conflict resolution first deletes every row that conflicts on
UNIQUE(rule_set, rule_number), then inserts a fresh row, which (id being
unspecified) receives a new AUTOINCREMENT id.  Per the SQLite documentation
on conflict resolution, rows deleted by REPLACE fire delete triggers only
when PRAGMA recursive_triggers is on; init.ts sets only foreign_keys and
journal_mode, so recursive_triggers keeps its default (off) and
court_rules_ad does NOT run for the displaced row.  The AFTER INSERT trigger
court_rules_ai does run for the new row and appends its index row. -/
def upsertCourtRule (db : CourtRulesDb) (rs rn name text : String) : CourtRulesDb :=
  { rows := db.rows.filter (fun r => !(keyMatches rs rn r)) ++ [⟨db.nextId, rs, rn, name, text⟩]
    fts := db.fts ++ [⟨db.nextId, rs, rn, name, text⟩]
    nextId := db.nextId + 1 }

/-- The synchronization invariant claimed by the spec for the primary table
and its search index: every live primary row has exactly one index row with
its rowid, and every index row points at a live primary row. -/
def ftsInSync (db : CourtRulesDb) : Prop :=
  (∀ r ∈ db.rows, (db.fts.filter (fun f => f.rowid == r.id)).length = 1) ∧
  (∀ f ∈ db.fts, ∃ r ∈ db.rows, r.id = f.rowid)

instance (db : CourtRulesDb) : Decidable (ftsInSync db) := by
  unfold ftsInSync; infer_instance

/-- Re-ingesting the same rule with fresh body text, as every re-run of a
scraper does. -/
def dbReingest : CourtRulesDb :=
  upsertCourtRule
    (upsertCourtRule emptyCourtRulesDb "CRLJ" "1.1" "Scope" "first body")
    "CRLJ" "1.1" "Scope" "second body"

/-- Claim C1: after an upsert of an already-present key the primary table and
its search index are NOT in sync: the displaced primary row is gone, but its
index row survives (REPLACE does not fire the delete trigger), so one primary
row faces two index rows, one of them dangling. -/
theorem court_rules_fts_desync :
    dbReingest.rows.length = 1 ∧ dbReingest.fts.length = 2 ∧ ¬ ftsInSync dbReingest := by
  decide

/-- Applying the identical normalized record twice. -/
def dbTwiceSame : CourtRulesDb :=
  upsertCourtRule
    (upsertCourtRule emptyCourtRulesDb "CRLJ" "1.1" "Scope" "body")
    "CRLJ" "1.1" "Scope" "body"

/-- Claim C2: the upsert is idempotent on the primary table (exactly one row
for the natural key) but NOT on the search index: after applying the same
record twice, two index rows carry the key. -/
theorem upsert_not_index_idempotent :
    (dbTwiceSame.rows.filter (keyMatches "CRLJ" "1.1")).length = 1 ∧
    (dbTwiceSame.fts.filter
      (fun f => f.ruleSet == "CRLJ" && f.ruleNumber == "1.1")).length = 2 := by
  decide

/-! ## LawDatabase.getCourtRule (src/database/database.ts) -/

/-- stmt.get on court_rules WHERE rule_set = ? AND rule_number = ?
(returns the first matching row; UNIQUE makes it the only one). -/
def findCourtRule? (rows : List CourtRuleRow) (rs rn : String) : Option CourtRuleRow :=
  rows.find? (keyMatches rs rn)

/-- JS ruleNumber.includes with a dot argument. -/
def includesDot (s : String) : Bool := s.data.contains '.'

/-- LawDatabase.getCourtRule: exact match first; when that misses and the
number has no dot, one retry with a zero sub-part appended; null when both
miss. -/
def getCourtRule (rows : List CourtRuleRow) (rs rn : String) : Option CourtRuleRow :=
  match findCourtRule? rows rs rn with
  | some r => some r
  | none => if includesDot rn then none else findCourtRule? rows rs (rn ++ ".0")

/-- Claim C5: the lookup returns an exact hit when present; on a miss for a
number without a sub part it performs exactly the one fallback lookup with
".0" appended; and (in that sub-part-free case) it reports not-found exactly
when both forms are absent. -/
theorem getCourtRule_fallback (rows : List CourtRuleRow) (rs rn : String) :
    (∀ r, findCourtRule? rows rs rn = some r → getCourtRule rows rs rn = some r) ∧
    (findCourtRule? rows rs rn = none → includesDot rn = false →
      getCourtRule rows rs rn = findCourtRule? rows rs (rn ++ ".0")) ∧
    (includesDot rn = false →
      (getCourtRule rows rs rn = none ↔
        findCourtRule? rows rs rn = none ∧ findCourtRule? rows rs (rn ++ ".0") = none)) := by
  refine ⟨fun r h => by simp [getCourtRule, h], fun h hdot => by simp [getCourtRule, h, hdot], ?_⟩
  intro hdot
  cases hfind : findCourtRule? rows rs rn with
  | some r => simp [getCourtRule, hfind]
  | none => simp [getCourtRule, hfind, hdot]

def rowsFallback : List CourtRuleRow := [⟨1, "RALJ", "1.0", "Scope", "body"⟩]

theorem getCourtRule_fallback_witness :
    getCourtRule rowsFallback "RALJ" "1" = findCourtRule? rowsFallback "RALJ" ("1" ++ ".0") ∧
    getCourtRule rowsFallback "RALJ" "1" = some ⟨1, "RALJ", "1.0", "Scope", "body"⟩ := by
  refine ⟨(getCourtRule_fallback rowsFallback "RALJ" "1").2.1 (by decide) (by decide), ?_⟩
  rw [(getCourtRule_fallback rowsFallback "RALJ" "1").2.1 (by decide) (by decide)]
  decide

/-! ## The rcw table and the hierarchy listings (src/database/database.ts) -/

structure RcwRow where
  id : Nat
  citation : String
  titleNum : String
  chapterNum : String
  sectionNum : String
  titleName : String
  chapterName : String
  sectionName : String
  fullText : String
deriving DecidableEq

/-- Distinct values in first-occurrence order (the GROUP BY keys; their
pre-ORDER BY order is irrelevant because every listing re-sorts). -/
def firstKeysAux {α : Type} [DecidableEq α] (seen : List α) : List α → List α
  | [] => []
  | a :: l => if a ∈ seen then firstKeysAux seen l else a :: firstKeysAux (a :: seen) l

def firstKeys {α : Type} [DecidableEq α] (l : List α) : List α := firstKeysAux [] l

structure TitleGroup where
  titleNum : String
  titleName : String
  count : Nat
deriving DecidableEq

/-- ORDER BY CAST(title_num AS INTEGER), title_num.  SQLite TEXT collation
(BINARY, a byte-wise compare) is modelled as lexicographic order on the
character list of the string, which agrees with byte order on UTF-8. -/
def titleSortKey (g : TitleGroup) : Int ×ₗ List Char :=
  toLex (castTextToInt g.titleNum, g.titleNum.data)

/-- LawDatabase.listRCWTitles: GROUP BY title_num, title_name with COUNT,
ORDER BY CAST(title_num AS INTEGER), title_num. -/
def listRCWTitles (rows : List RcwRow) : List TitleGroup :=
  let ks := firstKeys (rows.map (fun r => (r.titleNum, r.titleName)))
  sortByKey titleSortKey
    (ks.map (fun k =>
      ⟨k.1, k.2, (rows.filter (fun r => r.titleNum == k.1 && r.titleName == k.2)).length⟩))

structure ChapterGroup where
  chapterNum : String
  chapterName : String
  count : Nat
deriving DecidableEq

/-- LawDatabase.listRCWChapters: WHERE title_num = ?, GROUP BY chapter_num,
chapter_name, ORDER BY chapter_num -- a plain TEXT (lexicographic) order,
with no integer cast. -/
def listRCWChapters (rows : List RcwRow) (t : String) : List ChapterGroup :=
  let matching := rows.filter (fun r => r.titleNum == t)
  let ks := firstKeys (matching.map (fun r => (r.chapterNum, r.chapterName)))
  sortByKey (fun g : ChapterGroup => g.chapterNum.data)
    (ks.map (fun k =>
      ⟨k.1, k.2, (matching.filter (fun r => r.chapterNum == k.1 && r.chapterName == k.2)).length⟩))

structure SectionEntry where
  citation : String
  sectionName : String
deriving DecidableEq

/-- LawDatabase.listRCWSections: WHERE chapter_num = ?, ORDER BY citation --
again a plain TEXT (lexicographic) order. -/
def listRCWSections (rows : List RcwRow) (c : String) : List SectionEntry :=
  sortByKey (fun s : SectionEntry => s.citation.data)
    ((rows.filter (fun r => r.chapterNum == c)).map (fun r => ⟨r.citation, r.sectionName⟩))

/-- SUBSTR(rule_number, 1, INSTR(rule_number || '.', '.') - 1): the part of
the rule number before its first dot. -/
def ruleMajorStr (rn : String) : String := String.mk (rn.data.takeWhile (fun c => c ≠ '.'))

/-- SUBSTR(rule_number, INSTR(rule_number || '.', '.') + 1): everything after
the first dot (empty when there is none). -/
def ruleMinorStr (rn : String) : String :=
  String.mk ((rn.data.dropWhile (fun c => c ≠ '.')).drop 1)

/-- ORDER BY CAST(major AS INTEGER), CAST(minor AS INTEGER). -/
def courtRuleSortKey (r : CourtRuleRow) : Int ×ₗ Int :=
  toLex (castTextToInt (ruleMajorStr r.ruleNumber), castTextToInt (ruleMinorStr r.ruleNumber))

/-- LawDatabase.listCourtRules with a ruleSet filter: WHERE rule_set = ?,
ordered numerically on the parsed (major, minor) integers. -/
def listCourtRules (rows : List CourtRuleRow) (rs : String) : List CourtRuleRow :=
  sortByKey courtRuleSortKey (rows.filter (fun r => r.ruleSet == rs))

/-- LawDatabase.listCourtRules without a filter: ORDER BY rule_set first,
then the same numeric (major, minor) key. -/
def listAllCourtRules (rows : List CourtRuleRow) : List CourtRuleRow :=
  sortByKey (fun r => toLex (r.ruleSet, courtRuleSortKey r)) rows

/-- Two chapters of one title whose numbers compare differently as strings
and as integers, the exact pair named by the claim. -/
def rcwRowsChap : List RcwRow :=
  [⟨1, "7.46.010", "7", "46", "010", "T", "ChFortySix", "S1", "x"⟩,
   ⟨2, "7.9.010", "7", "9", "010", "T", "ChNine", "S2", "y"⟩]

/-- Claim C4, counterexample: listRCWChapters orders by the raw chapter
string, so chapter 46 comes back BEFORE chapter 9, violating the claimed
ascending numeric order of parsed integer segments. -/
theorem listRCWChapters_not_numeric :
    ((listRCWChapters rcwRowsChap "7").map (fun g => g.chapterNum)) = ["46", "9"] ∧
    ¬ ((listRCWChapters rcwRowsChap "7").map (fun g => g.chapterNum)).Sorted
        (fun a b => castTextToInt a ≤ castTextToInt b) := by
  constructor
  · decide
  · intro h
    have h46 : ((listRCWChapters rcwRowsChap "7").map (fun g => g.chapterNum)) = ["46", "9"] := by
      decide
    rw [h46] at h
    exact absurd (List.rel_of_sorted_cons h "9" (by decide)) (by decide)

/-- Claim C4, amended: titles and court rules are sorted in ascending numeric
order of their cast integer segments, but chapters under a title and sections
under a chapter are sorted in plain lexicographic string order of
chapter_num / citation. -/
theorem listHierarchy_ordering (rows : List RcwRow) (crRows : List CourtRuleRow)
    (t c rs : String) :
    (listRCWTitles rows).Sorted (fun a b => titleSortKey a ≤ titleSortKey b) ∧
    (listCourtRules crRows rs).Sorted (fun a b => courtRuleSortKey a ≤ courtRuleSortKey b) ∧
    (listRCWChapters rows t).Sorted (fun a b => a.chapterNum.data ≤ b.chapterNum.data) ∧
    (listRCWSections rows c).Sorted (fun a b => a.citation.data ≤ b.citation.data) :=
  ⟨sorted_sortByKey titleSortKey _, sorted_sortByKey courtRuleSortKey _,
   sorted_sortByKey (fun g : ChapterGroup => g.chapterNum.data) _,
   sorted_sortByKey (fun s : SectionEntry => s.citation.data) _⟩

/-! ## LawDatabase.searchLaws (src/database/database.ts)

Each family is queried through its FTS5 index with MATCH ? ORDER BY rank
LIMIT ?.  The ranked per-family hit lists returned by the FTS engine are
inputs of the model (the engine itself is external); the LIMIT clause is the
list truncation.  FTS5 rank values are negative reals; the code stores
score = Math.abs(rank).  They are modelled as integers, which preserves the
absolute-value / comparison logic. -/

structure FtsHit where
  citation : String
  rank : Int
deriving DecidableEq

structure SearchResult where
  type : String
  citation : String
  score : Int
deriving DecidableEq

/-- One family block of searchLaws: LIMIT perTypeLimit, then score := |rank|. -/
def perFamilyResults (tag : String) (hits : List FtsHit) (perTypeLimit : Nat) :
    List SearchResult :=
  (hits.take perTypeLimit).map (fun h => ⟨tag, h.citation, |h.rank|⟩)

/-- The merged result list before the final sort: RCW, then WAC, then Court
Rules, each capped at perTypeLimit = floor(limit / 3). -/
def mergedResults (rcwHits wacHits crHits : List FtsHit) (limit : Nat) : List SearchResult :=
  perFamilyResults "RCW" rcwHits (limit / 3) ++
  perFamilyResults "WAC" wacHits (limit / 3) ++
  perFamilyResults "Court Rule" crHits (limit / 3)

/-- LawDatabase.searchLaws: merge the three capped family queries, sort by
score descending (results.sort with comparator b.score - a.score, a stable
numeric sort), then slice(0, limit). -/
def searchLaws (rcwHits wacHits crHits : List FtsHit) (limit : Nat) : List SearchResult :=
  (@List.insertionSort SearchResult (fun a b => b.score ≤ a.score)
    (fun a b => inferInstanceAs (Decidable (b.score ≤ a.score)))
    (mergedResults rcwHits wacHits crHits limit)).take limit

/-- Claim C3: search queries each family independently with the per-family
cap floor(limit / 3), merges and re-sorts by score descending, truncates to
limit: the output never exceeds limit elements, is sorted by descending
score, and consists of results drawn from the three capped family lists. -/
theorem searchLaws_spec (rcwHits wacHits crHits : List FtsHit) (limit : Nat) :
    (searchLaws rcwHits wacHits crHits limit).length ≤ limit ∧
    (searchLaws rcwHits wacHits crHits limit).Sorted (fun a b => b.score ≤ a.score) ∧
    List.Subperm (searchLaws rcwHits wacHits crHits limit)
      (mergedResults rcwHits wacHits crHits limit) := by
  haveI : IsTotal SearchResult (fun a b => b.score ≤ a.score) :=
    ⟨fun a b => le_total b.score a.score⟩
  haveI : IsTrans SearchResult (fun a b => b.score ≤ a.score) :=
    ⟨fun _ _ _ h₁ h₂ => le_trans h₂ h₁⟩
  refine ⟨?_, ?_, ?_⟩
  · exact List.length_take_le limit _
  · exact (List.sorted_insertionSort _ _).sublist (List.take_sublist _ _)
  · exact ((List.take_sublist _ _).subperm).trans (List.perm_insertionSort _ _).subperm

/-- Claim C10: with a requested limit of 1 or 2 the per-family cap
floor(limit / 3) is 0, every family query runs with LIMIT 0, and search
returns the empty list no matter how many records match. -/
theorem searchLaws_small_limit_empty (rcwHits wacHits crHits : List FtsHit) :
    searchLaws rcwHits wacHits crHits 1 = [] ∧ searchLaws rcwHits wacHits crHits 2 = [] := by
  constructor <;> rfl

/-! ## Discovery dedup (court-rules-scraper.ts and ralj-scraper.ts)

CourtRulesScraper.scrapeRuleSet dedups the discovered links with
Array.from(new Map(rules.map(r => [ruleSet-ruleNumber, r])).values()):
a JS Map keeps each key at its first-insertion position but a repeated
set overwrites the stored value, so the LAST record of a key wins.
RALJScraper (like both scrapers in rpc-scraper.ts) instead pushes a record
only when rules.find sees no earlier record with the same rule number, so
the FIRST record of a key wins. -/

structure CourtRuleLink where
  ruleSet : String
  ruleNumber : String
  ruleName : String
  url : String
deriving DecidableEq

structure RALJRuleLink where
  ruleSet : String
  ruleNumber : String
  ruleName : String
  pdfUrl : String
deriving DecidableEq

/-- The Map key template literal ruleSet-ruleNumber. -/
def mapKey (r : CourtRuleLink) : String := r.ruleSet ++ "-" ++ r.ruleNumber

/-- JS Map.prototype.set: overwrite in place when the key exists, append
otherwise. -/
def mapInsert (m : List (String × CourtRuleLink)) (k : String) (v : CourtRuleLink) :
    List (String × CourtRuleLink) :=
  if m.any (fun q => q.1 == k) then m.map (fun q => if q.1 == k then (k, v) else q)
  else m ++ [(k, v)]

/-- Array.from(new Map(rules.map(r => [mapKey r, r])).values()). -/
def jsMapDedup (l : List CourtRuleLink) : List CourtRuleLink :=
  (l.foldl (fun m r => mapInsert m (mapKey r) r) []).map (fun q => q.2)

/-- The push-unless-found loop of RALJScraper.scrapeRALJ (and of both
scrapers in rpc-scraper.ts): if (!rules.find(r => r.ruleNumber === n))
rules.push(...). -/
def findDedup (l : List RALJRuleLink) : List RALJRuleLink :=
  l.foldl
    (fun acc r =>
      if (acc.find? (fun x => x.ruleNumber == r.ruleNumber)).isSome then acc else acc ++ [r])
    []

/-- The last record of the input carrying a given canonical key. -/
def lastWith (l : List CourtRuleLink) (k : String) : Option CourtRuleLink :=
  (l.filter (fun x => mapKey x == k)).getLast?

theorem mem_mapInsert (m : List (String × CourtRuleLink)) (k : String) (v : CourtRuleLink)
    (p : String × CourtRuleLink) :
    p ∈ mapInsert m k v ↔ p = (k, v) ∨ (p ∈ m ∧ p.1 ≠ k) := by
  unfold mapInsert
  by_cases h : (m.any fun q => q.1 == k) = true
  · rw [if_pos h]
    constructor
    · intro hp
      rcases List.mem_map.mp hp with ⟨q, hq, hfq⟩
      by_cases hk : q.1 = k
      · left
        rw [← hfq]
        simp [hk]
      · right
        rw [← hfq]
        simp only [beq_iff_eq, hk, if_false]
        exact ⟨hq, hk⟩
    · rintro (rfl | ⟨hpm, hpk⟩)
      · rcases List.any_eq_true.mp h with ⟨q, hq, hqk⟩
        exact List.mem_map.mpr ⟨q, hq, by simp [beq_iff_eq.mp hqk]⟩
      · exact List.mem_map.mpr ⟨p, hpm, by simp [hpk]⟩
  · rw [if_neg h]
    have hall : ∀ q ∈ m, q.1 ≠ k := by
      intro q hq hqk
      exact h (List.any_eq_true.mpr ⟨q, hq, beq_iff_eq.mpr hqk⟩)
    constructor
    · intro hp
      rcases List.mem_append.mp hp with hpm | hpv
      · exact Or.inr ⟨hpm, hall p hpm⟩
      · exact Or.inl (List.mem_singleton.mp hpv)
    · rintro (rfl | ⟨hpm, _⟩)
      · exact List.mem_append.mpr (Or.inr (List.mem_singleton.mpr rfl))
      · exact List.mem_append.mpr (Or.inl hpm)

theorem mapFold_coherent (l : List CourtRuleLink) :
    ∀ (m : List (String × CourtRuleLink)), (∀ p ∈ m, p.1 = mapKey p.2) →
      ∀ p ∈ l.foldl (fun m r => mapInsert m (mapKey r) r) m, p.1 = mapKey p.2 := by
  induction l with
  | nil => intro m hm p hp; exact hm p hp
  | cons x xs ih =>
    intro m hm p hp
    refine ih (mapInsert m (mapKey x) x) ?_ p hp
    intro q hq
    rcases (mem_mapInsert m (mapKey x) x q).mp hq with rfl | ⟨hqm, _⟩
    · rfl
    · exact hm q hqm

theorem mapFold_mem (l : List CourtRuleLink) :
    ∀ (m : List (String × CourtRuleLink)) (k : String) (v : CourtRuleLink),
      ((k, v) ∈ l.foldl (fun m r => mapInsert m (mapKey r) r) m ↔
        (lastWith l k = some v ∨ ((k, v) ∈ m ∧ lastWith l k = none))) := by
  induction l with
  | nil =>
    intro m k v
    simp [lastWith]
  | cons x xs ih =>
    intro m k v
    rw [List.foldl_cons, ih]
    by_cases hk : mapKey x = k
    · have hfilter : (x :: xs).filter (fun y => mapKey y == k) =
          x :: xs.filter (fun y => mapKey y == k) := by
        simp [List.filter_cons, hk]
      cases hxs : lastWith xs k with
      | some w =>
        have hne : xs.filter (fun y => mapKey y == k) ≠ [] := by
          intro hnil
          rw [lastWith, hnil] at hxs
          exact Option.noConfusion hxs
        have hlast : lastWith (x :: xs) k = some w := by
          rw [lastWith, hfilter]
          cases hft : xs.filter (fun y => mapKey y == k) with
          | nil => exact absurd hft hne
          | cons a t =>
            rw [List.getLast?_cons_cons]
            rw [lastWith, hft] at hxs
            exact hxs
        rw [hlast]
        simp
      | none =>
        have hnil : xs.filter (fun y => mapKey y == k) = [] :=
          List.getLast?_eq_none_iff.mp hxs
        have hlast : lastWith (x :: xs) k = some x := by
          rw [lastWith, hfilter, hnil]
          rfl
        rw [hlast, mem_mapInsert]
        constructor
        · rintro (h | ⟨h, -⟩)
          · exact Option.noConfusion h
          · rcases h with h | ⟨_, hne⟩
            · exact Or.inl (congrArg some (congrArg Prod.snd h).symm)
            · exact absurd hk.symm hne
        · rintro (h | ⟨_, h⟩)
          · exact Or.inr ⟨Or.inl (Prod.ext_iff.mpr ⟨hk.symm, (Option.some_inj.mp h).symm⟩), rfl⟩
          · exact Option.noConfusion h
    · have hfilter : (x :: xs).filter (fun y => mapKey y == k) =
          xs.filter (fun y => mapKey y == k) := by
        simp [List.filter_cons, hk]
      have hlast : lastWith (x :: xs) k = lastWith xs k := by
        rw [lastWith, hfilter]; rfl
      rw [hlast, mem_mapInsert]
      constructor
      · rintro (h | ⟨hm, h⟩)
        · exact Or.inl h
        · rcases hm with hm | ⟨hm2, -⟩
          · exact absurd (Prod.ext_iff.mp hm).1 (fun e => hk e.symm)
          · exact Or.inr ⟨hm2, h⟩
      · rintro (h | ⟨hm, h⟩)
        · exact Or.inl h
        · exact Or.inr ⟨Or.inr ⟨hm, fun e => hk e.symm⟩, h⟩

/-- Reference recursion for the push-unless-found loop, tracking the set of
rule numbers already kept. -/
def seenDedup (seen : List String) : List RALJRuleLink → List RALJRuleLink
  | [] => []
  | r :: rs =>
    if r.ruleNumber ∈ seen then seenDedup seen rs
    else r :: seenDedup (r.ruleNumber :: seen) rs

theorem seenDedup_congr (l : List RALJRuleLink) :
    ∀ (s₁ s₂ : List String), (∀ k, k ∈ s₁ ↔ k ∈ s₂) → seenDedup s₁ l = seenDedup s₂ l := by
  induction l with
  | nil => intro s₁ s₂ _; rfl
  | cons x xs ih =>
    intro s₁ s₂ h
    by_cases hx : x.ruleNumber ∈ s₁
    · rw [seenDedup, seenDedup, if_pos hx, if_pos ((h _).mp hx)]
      exact ih s₁ s₂ h
    · rw [seenDedup, seenDedup, if_neg hx, if_neg (fun hm => hx ((h _).mpr hm))]
      rw [ih (x.ruleNumber :: s₁) (x.ruleNumber :: s₂) (by intro k; simp [h k])]

theorem findDedup_foldl (l : List RALJRuleLink) :
    ∀ acc : List RALJRuleLink,
      l.foldl
        (fun acc r =>
          if (acc.find? (fun x => x.ruleNumber == r.ruleNumber)).isSome then acc
          else acc ++ [r])
        acc
      = acc ++ seenDedup (acc.map (fun x => x.ruleNumber)) l := by
  induction l with
  | nil => intro acc; simp [seenDedup]
  | cons x xs ih =>
    intro acc
    have hbridge : (acc.find? (fun y => y.ruleNumber == x.ruleNumber)).isSome = true ↔
        x.ruleNumber ∈ acc.map (fun y => y.ruleNumber) := by
      constructor
      · intro hs
        rcases List.find?_isSome.mp hs with ⟨y, hy, he⟩
        exact List.mem_map.mpr ⟨y, hy, beq_iff_eq.mp he⟩
      · intro hm
        rcases List.mem_map.mp hm with ⟨y, hy, he⟩
        exact List.find?_isSome.mpr ⟨y, hy, beq_iff_eq.mpr he⟩
    rw [List.foldl_cons]
    by_cases hc : x.ruleNumber ∈ acc.map (fun y => y.ruleNumber)
    · rw [if_pos (hbridge.mpr hc), ih, seenDedup, if_pos hc]
    · rw [if_neg (fun hs => hc (hbridge.mp hs)), ih, seenDedup, if_neg hc]
      simp only [List.map_append, List.map_cons, List.map_nil]
      rw [seenDedup_congr xs (acc.map (fun y => y.ruleNumber) ++ [x.ruleNumber])
        (x.ruleNumber :: acc.map (fun y => y.ruleNumber))
        (by
          intro k
          simp only [List.mem_append, List.mem_cons, List.not_mem_nil, or_false]
          exact or_comm)]
      simp

theorem mem_seenDedup (l : List RALJRuleLink) :
    ∀ (seen : List String) (r : RALJRuleLink),
      r ∈ seenDedup seen l ↔
        r.ruleNumber ∉ seen ∧
          l.find? (fun x => x.ruleNumber == r.ruleNumber) = some r := by
  induction l with
  | nil => intro seen r; simp [seenDedup]
  | cons x xs ih =>
    intro seen r
    by_cases hx : x.ruleNumber ∈ seen
    · rw [seenDedup, if_pos hx, ih]
      by_cases hk : x.ruleNumber = r.ruleNumber
      · rw [List.find?_cons_of_pos _ (by simp [hk])]
        constructor
        · rintro ⟨hns, -⟩; exact absurd (hk ▸ hx) hns
        · rintro ⟨hns, -⟩; exact absurd (hk ▸ hx) hns
      · rw [List.find?_cons_of_neg _ (by simp [hk])]
    · rw [seenDedup, if_neg hx, List.mem_cons, ih]
      by_cases hk : x.ruleNumber = r.ruleNumber
      · rw [List.find?_cons_of_pos _ (by simp [hk])]
        constructor
        · rintro (rfl | ⟨hni, -⟩)
          · exact ⟨hx, rfl⟩
          · exact absurd (by rw [hk]; exact List.mem_cons_self _ _) hni
        · rintro ⟨_, hsome⟩
          exact Or.inl (Option.some_inj.mp hsome).symm
      · rw [List.find?_cons_of_neg _ (by simp [hk])]
        constructor
        · rintro (rfl | ⟨hni, hfind⟩)
          · exact absurd rfl hk
          · exact ⟨fun hmem => hni (List.mem_cons_of_mem _ hmem), hfind⟩
        · rintro ⟨hns, hfind⟩
          refine Or.inr ⟨?_, hfind⟩
          intro hmem
          rcases List.mem_cons.mp hmem with he | hm
          · exact hk he.symm
          · exact hns hm

theorem mem_findDedup (l : List RALJRuleLink) (r : RALJRuleLink) :
    r ∈ findDedup l ↔ l.find? (fun x => x.ruleNumber == r.ruleNumber) = some r := by
  unfold findDedup
  rw [findDedup_foldl l [], List.nil_append]
  rw [mem_seenDedup]
  simp

theorem mem_jsMapDedup (m : List CourtRuleLink) (r : CourtRuleLink) :
    r ∈ jsMapDedup m ↔ lastWith m (mapKey r) = some r := by
  unfold jsMapDedup
  constructor
  · intro h
    rcases List.mem_map.mp h with ⟨p, hp, hsnd⟩
    have hco : p.1 = mapKey p.2 :=
      mapFold_coherent m [] (by intro q hq; exact absurd hq (List.not_mem_nil q)) p hp
    have hpe : p = (mapKey r, r) := by
      cases hsnd
      exact Prod.ext hco rfl
    rw [hpe] at hp
    rcases (mapFold_mem m [] (mapKey r) r).mp hp with hl | ⟨hmem, -⟩
    · exact hl
    · exact absurd hmem (List.not_mem_nil _)
  · intro h
    exact List.mem_map.mpr ⟨(mapKey r, r), (mapFold_mem m [] (mapKey r) r).mpr (Or.inl h), rfl⟩

def linkFirst : CourtRuleLink := ⟨"IRLJ", "1.1", "First name", "u1"⟩

def linkSecond : CourtRuleLink := ⟨"IRLJ", "1.1", "Second name", "u2"⟩

/-- Claim C6, counterexample: when two discovered links normalize to the same
canonical identifier, the Map-based dedup of CourtRulesScraper keeps the
SECOND (last) record, not the first one as claimed. -/
theorem jsMapDedup_keeps_last :
    jsMapDedup [linkFirst, linkSecond] = [linkSecond] ∧
    jsMapDedup [linkFirst, linkSecond] ≠ [linkFirst] ∧ linkSecond ≠ linkFirst := by
  decide

/-- Claim C6, amended: the find-based scrapers (ralj-scraper.ts and both
scrapers of rpc-scraper.ts) keep exactly the first discovered record of each
canonical identifier, while the Map-based court-rules-scraper.ts keeps, for
each canonical identifier, the last record encountered (still one record per
identifier, at its first-encounter position). -/
theorem dedup_first_vs_last (l : List RALJRuleLink) (m : List CourtRuleLink) :
    (∀ r, r ∈ findDedup l ↔ l.find? (fun x => x.ruleNumber == r.ruleNumber) = some r) ∧
    (∀ r, r ∈ jsMapDedup m ↔ lastWith m (mapKey r) = some r) :=
  ⟨fun r => mem_findDedup l r, fun r => mem_jsMapDedup m r⟩

def raljLinkA : RALJRuleLink := ⟨"RALJ", "1.1", "Scope A", "p1"⟩

def raljLinkB : RALJRuleLink := ⟨"RALJ", "1.1", "Scope B", "p2"⟩

theorem dedup_first_vs_last_witness :
    linkSecond ∈ jsMapDedup [linkFirst, linkSecond] ∧
    raljLinkA ∈ findDedup [raljLinkA, raljLinkB] := by
  constructor
  · exact ((dedup_first_vs_last [] [linkFirst, linkSecond]).2 linkSecond).mpr (by decide)
  · exact ((dedup_first_vs_last [raljLinkA, raljLinkB] []).1 raljLinkA).mpr (by decide)

/-! ## Filename-derived rule numbers (rpc-scraper.ts and ralj-scraper.ts)

The PDF scrapers derive rule numbers from filenames of the shape
PREFIX_SET_major_minor_sub.pdf, each field a regex capture of digits. -/

/-- CourtRulesPDFScraperV2 (IRLJ / CRLJ): CLJ_SET_(d+)_(d+)_d+.pdf maps to
parseInt(major).parseInt(minor); the third field is not captured and is
ignored. -/
def v2RuleNumber (m1 m2 : String) : String :=
  toString (parseIntDigits m1) ++ "." ++ toString (parseIntDigits m2)

/-- RALJScraper: CLJ_RALJ_(d+)_(d+)_(d+).pdf; when the third capture differs
from the literal 00 and parses to a positive integer it is appended as a
second decimal extension. -/
def raljRuleNumber (m1 m2 m3 : String) : String :=
  let base := toString (parseIntDigits m1) ++ "." ++ toString (parseIntDigits m2)
  if m3 ≠ "00" ∧ parseIntDigits m3 > 0 then base ++ "." ++ toString (parseIntDigits m3)
  else base

/-- RPCScraper: GA_RPC_(d+)_(d+)_(d+).pdf; when the third capture differs
from the literal 00 it is appended as the letter
String.fromCharCode(96 + parseInt(sub)). -/
def rpcRuleNumber (m1 m2 m3 : String) : String :=
  let base := toString (parseIntDigits m1) ++ "." ++ toString (parseIntDigits m2)
  if m3 ≠ "00" then base.push (Char.ofNat (96 + parseIntDigits m3)) else base

/-- The characters matched by the regex digit class. -/
def digitChars : List Char := ['0', '1', '2', '3', '4', '5', '6', '7', '8', '9']

/-- A string consisting solely of decimal digits (the language of a d+
capture). -/
def isDigitStr (s : String) : Prop := ∀ c ∈ s.data, c ∈ digitChars

instance (s : String) : Decidable (isDigitStr s) := by
  unfold isDigitStr; infer_instance

theorem digitChar_val_inj :
    ∀ x ∈ digitChars, ∀ y ∈ digitChars, digitVal x = digitVal y → x = y := by
  decide

theorem digitVal_lt_ten : ∀ c ∈ digitChars, digitVal c < 10 := by
  decide

theorem parseIntDigits_two (x y : Char) (s : String) (h : s.data = [x, y]) :
    parseIntDigits s = digitVal x * 10 + digitVal y := by
  simp only [parseIntDigits, h, List.foldl_cons, List.foldl_nil]
  omega

/-- Two fixed-width (two-digit) encodings of the same value are the same
string. -/
theorem digit2_inj (c1 c2 : String) (h1 : isDigitStr c1) (h2 : isDigitStr c2)
    (hl1 : c1.data.length = 2) (hl2 : c2.data.length = 2)
    (hp : parseIntDigits c1 = parseIntDigits c2) : c1 = c2 := by
  rcases List.length_eq_two.mp hl1 with ⟨x1, y1, e1⟩
  rcases List.length_eq_two.mp hl2 with ⟨x2, y2, e2⟩
  have hx1 : x1 ∈ digitChars := h1 x1 (by rw [e1]; exact List.mem_cons_self _ _)
  have hy1 : y1 ∈ digitChars := h1 y1 (by rw [e1]; exact List.mem_cons_of_mem _ (List.mem_cons_self _ _))
  have hx2 : x2 ∈ digitChars := h2 x2 (by rw [e2]; exact List.mem_cons_self _ _)
  have hy2 : y2 ∈ digitChars := h2 y2 (by rw [e2]; exact List.mem_cons_of_mem _ (List.mem_cons_self _ _))
  rw [parseIntDigits_two x1 y1 c1 e1, parseIntDigits_two x2 y2 c2 e2] at hp
  have bx1 := digitVal_lt_ten x1 hx1
  have by1 := digitVal_lt_ten y1 hy1
  have bx2 := digitVal_lt_ten x2 hx2
  have by2 := digitVal_lt_ten y2 hy2
  have hxe : x1 = x2 := digitChar_val_inj x1 hx1 x2 hx2 (by omega)
  have hye : y1 = y2 := digitChar_val_inj y1 hy1 y2 hy2 (by omega)
  apply String.ext
  rw [e1, e2, hxe, hye]

/-- The RALJ append condition reduces to positivity of the parsed sub field:
the string 00 parses to 0, so a positive parse already rules it out. -/
theorem ralj_cond (c : String) :
    ((c ≠ "00") ∧ parseIntDigits c > 0) ↔ parseIntDigits c > 0 := by
  constructor
  · exact fun h => h.2
  · intro h
    refine ⟨fun hc => ?_, h⟩
    rw [hc] at h
    exact absurd h (by decide)

theorem upsert_rows_key (db : CourtRulesDb) (rs rn name text : String) :
    (upsertCourtRule db rs rn name text).rows.filter (keyMatches rs rn) =
      [⟨db.nextId, rs, rn, name, text⟩] := by
  unfold upsertCourtRule
  rw [List.filter_append, List.filter_filter]
  have h1 : (db.rows.filter fun a => keyMatches rs rn a && !keyMatches rs rn a) = [] := by
    have he : (fun a => keyMatches rs rn a && !keyMatches rs rn a) =
        fun _ : CourtRuleRow => false :=
      funext fun a => by cases keyMatches rs rn a <;> rfl
    rw [he, List.filter_false]
  rw [h1, List.nil_append]
  have h2 : keyMatches rs rn ⟨db.nextId, rs, rn, name, text⟩ = true := by
    simp [keyMatches]
  simp [List.filter_cons, h2]

/-- Claim C7: within each PDF rule family the canonical rule number depends
only on the decoded (major, minor, sub) integer triple: the V2 (IRLJ/CRLJ)
and RALJ normalizers are invariant under any re-encoding with the same
parsed values, the RPC normalizer under any fixed-width two-digit
re-encoding; the CRLJ scenario (1, 1, 0) yields 1.1; and re-upserting the
same key with new body text overwrites the single primary row rather than
duplicating it. -/
theorem ruleNumber_normalization (a1 b1 c1 a2 b2 c2 : String) :
    (parseIntDigits a1 = parseIntDigits a2 → parseIntDigits b1 = parseIntDigits b2 →
      v2RuleNumber a1 b1 = v2RuleNumber a2 b2) ∧
    (parseIntDigits a1 = parseIntDigits a2 → parseIntDigits b1 = parseIntDigits b2 →
      parseIntDigits c1 = parseIntDigits c2 →
      raljRuleNumber a1 b1 c1 = raljRuleNumber a2 b2 c2) ∧
    (isDigitStr c1 → isDigitStr c2 → c1.data.length = 2 → c2.data.length = 2 →
      parseIntDigits a1 = parseIntDigits a2 → parseIntDigits b1 = parseIntDigits b2 →
      parseIntDigits c1 = parseIntDigits c2 →
      rpcRuleNumber a1 b1 c1 = rpcRuleNumber a2 b2 c2) ∧
    v2RuleNumber "01" "01" = "1.1" ∧
    (∀ (db : CourtRulesDb) (n1 t1 n2 t2 : String),
      ((upsertCourtRule (upsertCourtRule db "CRLJ" "1.1" n1 t1) "CRLJ" "1.1" n2 t2).rows.filter
        (keyMatches "CRLJ" "1.1")).map (fun r => r.fullText) = [t2]) := by
  refine ⟨?_, ?_, ?_, ?_, ?_⟩
  · intro ha hb
    unfold v2RuleNumber
    rw [ha, hb]
  · intro ha hb hcv
    unfold raljRuleNumber
    by_cases hc : parseIntDigits c1 > 0
    · rw [if_pos ((ralj_cond c1).mpr hc), if_pos ((ralj_cond c2).mpr (hcv ▸ hc)), ha, hb, hcv]
    · rw [if_neg (fun hx => hc ((ralj_cond c1).mp hx)),
        if_neg (fun hx => hc (hcv.symm ▸ (ralj_cond c2).mp hx)), ha, hb]
  · intro hd1 hd2 hl1 hl2 ha hb hcv
    have hce := digit2_inj c1 c2 hd1 hd2 hl1 hl2 hcv
    subst hce
    unfold rpcRuleNumber
    rw [ha, hb]
  · rfl
  · intro db n1 t1 n2 t2
    rw [upsert_rows_key]
    rfl

theorem ruleNumber_normalization_witness :
    raljRuleNumber "01" "01" "00" = raljRuleNumber "1" "1" "0" ∧
    rpcRuleNumber "01" "07" "00" = rpcRuleNumber "1" "7" "00" ∧
    v2RuleNumber "01" "01" = "1.1" := by
  refine ⟨?_, ?_, ?_⟩
  · exact (ruleNumber_normalization "01" "01" "00" "1" "1" "0").2.1
      (by decide) (by decide) (by decide)
  · exact (ruleNumber_normalization "01" "07" "00" "1" "7" "00").2.2.1
      (by decide) (by decide) (by decide) (by decide) (by decide) (by decide) (by decide)
  · exact (ruleNumber_normalization "01" "01" "00" "1" "1" "0").2.2.2.1

/-! ## PDF body-start truncation (downloadAndParseRule in the PDF scrapers)

After whitespace normalization each scraper runs
ruleStart = fullText.search(new RegExp(SET + ss + NUMBER, i)) and keeps
fullText.substring(ruleStart) under a guard.  The regex search is modelled
as the first occurrence of the literal pattern SET-space-NUMBER, the exact
form the real pattern matches in the texts evaluated here. -/

/-- First index of pat inside a character list, or none. -/
def listIndexOf (pat : List Char) : List Char → Option Nat
  | [] => if pat.isEmpty then some 0 else none
  | c :: rest =>
    if pat.isPrefixOf (c :: rest) then some 0
    else (listIndexOf pat rest).map (fun n => n + 1)

/-- JS String.prototype.search for a literal pattern: first match index,
-1 when absent. -/
def jsSearch (hay pat : String) : Int :=
  match listIndexOf pat.data hay.data with
  | some n => (n : Int)
  | none => -1

/-- RALJScraper.downloadAndParseRule: truncate only when the match sits
past position 0 and within the first 100 characters. -/
def raljTruncate (rn text : String) : String :=
  let ruleStart := jsSearch text ("RALJ " ++ rn)
  if 0 < ruleStart ∧ ruleStart < 100 then text.drop ruleStart.toNat else text

/-- RPCScraper.downloadAndParseRule: the same bounded guard. -/
def rpcTruncate (rn text : String) : String :=
  let ruleStart := jsSearch text ("RPC " ++ rn)
  if 0 < ruleStart ∧ ruleStart < 100 then text.drop ruleStart.toNat else text

/-- CourtRulesPDFScraperV2.downloadAndParseRule: truncates whenever the match
sits past position 0, with NO upper bound on the offset. -/
def v2Truncate (rs rn text : String) : String :=
  let ruleStart := jsSearch text (rs ++ " " ++ rn)
  if 0 < ruleStart then text.drop ruleStart.toNat else text

/-- A text whose rule-header pattern first occurs at offset 150, far past the
bounded window near the top. -/
def lateMatchText : String := String.mk (List.replicate 150 'x') ++ "CRLJ 1.1 Scope of rules"

/-- Claim C8, counterexample: in the V2 scraper a match found 150 characters
into the document (outside any bounded top-of-text window) still causes
truncation, discarding the 150-character preamble. -/
theorem v2Truncate_truncates_late_match :
    jsSearch lateMatchText ("CRLJ" ++ " " ++ "1.1") = 150 ∧
    v2Truncate "CRLJ" "1.1" lateMatchText = "CRLJ 1.1 Scope of rules" ∧
    v2Truncate "CRLJ" "1.1" lateMatchText ≠ lateMatchText := by
  refine ⟨by decide, by decide, by decide⟩

/-- Claim C8, amended: the RALJ and RPC extractors truncate exactly when the
match offset lies strictly between 0 and 100, and leave the text untouched
otherwise (in particular for any later match); the V2 (IRLJ/CRLJ) extractor
truncates for every positive offset, without any upper bound. -/
theorem truncate_guards (rs rn text : String) :
    (¬(0 < jsSearch text ("RALJ " ++ rn) ∧ jsSearch text ("RALJ " ++ rn) < 100) →
      raljTruncate rn text = text) ∧
    (0 < jsSearch text ("RALJ " ++ rn) → jsSearch text ("RALJ " ++ rn) < 100 →
      raljTruncate rn text = text.drop (jsSearch text ("RALJ " ++ rn)).toNat) ∧
    (¬(0 < jsSearch text ("RPC " ++ rn) ∧ jsSearch text ("RPC " ++ rn) < 100) →
      rpcTruncate rn text = text) ∧
    (0 < jsSearch text ("RPC " ++ rn) → jsSearch text ("RPC " ++ rn) < 100 →
      rpcTruncate rn text = text.drop (jsSearch text ("RPC " ++ rn)).toNat) ∧
    (jsSearch text (rs ++ " " ++ rn) ≤ 0 → v2Truncate rs rn text = text) ∧
    (0 < jsSearch text (rs ++ " " ++ rn) →
      v2Truncate rs rn text = text.drop (jsSearch text (rs ++ " " ++ rn)).toNat) := by
  refine ⟨?_, ?_, ?_, ?_, ?_, ?_⟩
  · intro h
    simp only [raljTruncate]
    rw [if_neg h]
  · intro h1 h2
    simp only [raljTruncate]
    rw [if_pos ⟨h1, h2⟩]
  · intro h
    simp only [rpcTruncate]
    rw [if_neg h]
  · intro h1 h2
    simp only [rpcTruncate]
    rw [if_pos ⟨h1, h2⟩]
  · intro h
    simp only [v2Truncate]
    rw [if_neg (by omega)]
  · intro h
    simp only [v2Truncate]
    rw [if_pos h]

/-- A text whose rule-header pattern first occurs at offset 150 for the RALJ
set: the bounded extractors leave it untouched. -/
def lateMatchRalj : String := String.mk (List.replicate 150 'x') ++ "RALJ 1.1 Scope"

theorem truncate_guards_witness :
    raljTruncate "1.1" lateMatchRalj = lateMatchRalj ∧
    v2Truncate "CRLJ" "1.1" ("x " ++ "CRLJ 1.1 body") = String.drop ("x " ++ "CRLJ 1.1 body") 2 := by
  constructor
  · exact (truncate_guards "RALJ" "1.1" lateMatchRalj).1 (by decide)
  · exact (truncate_guards "CRLJ" "1.1" ("x " ++ "CRLJ 1.1 body")).2.2.2.2.2 (by decide)

/-! ## The MCP tool boundary (src/index.ts CallToolRequestSchema handler)

The handler destructures the request, dispatches on the tool name, and wraps
the whole switch in try/catch; every branch returns a text response.  The
three semantic outcomes (found record, not-found message, caught-error
message) are modelled as constructors.  FTS5 MATCH answers are supplied by
an oracle (the engine is external); a missing required argument makes the
prepared statement binding throw inside the try block, which the catch turns
into an error string, modelled as a direct errMsg. -/

structure WacRow where
  id : Nat
  citation : String
  titleNum : String
  chapterNum : String
  sectionNum : String
  titleName : String
  chapterName : String
  sectionName : String
  fullText : String
deriving DecidableEq

/-- LawDatabase.getRCW: single-row lookup by citation. -/
def getRCW (rows : List RcwRow) (c : String) : Option RcwRow :=
  rows.find? (fun r => r.citation == c)

/-- LawDatabase.getWAC: single-row lookup by citation. -/
def getWAC (rows : List WacRow) (c : String) : Option WacRow :=
  rows.find? (fun r => r.citation == c)

structure LawDb where
  rcw : List RcwRow
  wac : List WacRow
  courtRules : List CourtRuleRow
  metaLastUpdate : Option String

structure FtsOracle where
  rcwHits : String → List FtsHit
  wacHits : String → List FtsHit
  crHits : String → List FtsHit

structure ToolArgs where
  citation : Option String
  ruleSet : Option String
  ruleNumber : Option String
  query : Option String
  limit : Option Nat
  titleNum : Option String
  chapterNum : Option String

/-- Everything the handler sends back is a text content block; the
constructor records which of the three outcome categories produced it. -/
inductive ToolResponse where
  | ok (text : String)
  | notFoundMsg (text : String)
  | errMsg (text : String)
deriving DecidableEq

def knownTools : List String :=
  ["get_rcw", "get_wac", "get_court_rule", "list_court_rules", "search_laws",
   "list_rcw_titles", "list_rcw_chapters", "list_rcw_sections", "get_statistics"]

def renderRCW (r : RcwRow) : String :=
  "# RCW " ++ r.citation ++ (if r.sectionName = "" then "" else ": " ++ r.sectionName) ++
  "\n\n**Title " ++ r.titleNum ++ "**: " ++ (if r.titleName = "" then "Unknown" else r.titleName) ++
  "\n**Chapter " ++ r.chapterNum ++ "**: " ++
  (if r.chapterName = "" then "Unknown" else r.chapterName) ++
  "\n\n## Full Text\n\n" ++ r.fullText

def renderWAC (r : WacRow) : String :=
  "# WAC " ++ r.citation ++ (if r.sectionName = "" then "" else ": " ++ r.sectionName) ++
  "\n\n**Title " ++ r.titleNum ++ "**: " ++ (if r.titleName = "" then "Unknown" else r.titleName) ++
  "\n**Chapter " ++ r.chapterNum ++ "**: " ++
  (if r.chapterName = "" then "Unknown" else r.chapterName) ++
  "\n\n## Full Text\n\n" ++ r.fullText

def renderRule (r : CourtRuleRow) : String :=
  "# " ++ r.ruleSet ++ " " ++ r.ruleNumber ++
  (if r.ruleName = "" then "" else ": " ++ r.ruleName) ++
  "\n\n## Full Text\n\n" ++ r.fullText

def renderRuleList (rules : List CourtRuleRow) : String :=
  rules.foldl
    (fun acc r => acc ++ "- **" ++ r.ruleSet ++ " " ++ r.ruleNumber ++ "**: " ++ r.ruleName ++ "\n")
    "# Court Rules\n\n"

def renderSearchResults (q : String) (results : List SearchResult) : String :=
  results.foldl
    (fun acc r => acc ++ "## " ++ r.type ++ " " ++ r.citation ++ "\n")
    ("# Search Results for \"" ++ q ++ "\"\n\nFound " ++ toString results.length ++ " results:\n\n")

def renderTitles (titles : List TitleGroup) : String :=
  titles.foldl
    (fun acc t => acc ++ "- **Title " ++ t.titleNum ++ "**: " ++ t.titleName ++
      " (" ++ toString t.count ++ " sections)\n")
    "# RCW Titles\n\n"

def renderChapters (t : String) (chapters : List ChapterGroup) : String :=
  chapters.foldl
    (fun acc c => acc ++ "- **Chapter " ++ c.chapterNum ++ "**: " ++ c.chapterName ++
      " (" ++ toString c.count ++ " sections)\n")
    ("# RCW Title " ++ t ++ " Chapters\n\n")

def renderSections (c : String) (sections : List SectionEntry) : String :=
  sections.foldl
    (fun acc s => acc ++ "- **" ++ s.citation ++ "**: " ++ s.sectionName ++ "\n")
    ("# RCW Chapter " ++ c ++ " Sections\n\n")

def renderStats (db : LawDb) : String :=
  "# Washington Law Database Statistics\n\n- **RCW Sections**: " ++ toString db.rcw.length ++
  "\n- **WAC Sections**: " ++ toString db.wac.length ++
  "\n- **Court Rules**: " ++ toString db.courtRules.length ++
  "\n- **Last Update**: " ++ (db.metaLastUpdate.getD "Unknown")

/-- The message produced by the catch block for a missing required argument
(the prepared statement rejects an undefined binding). -/
def missingArgMsg : String := "Error: missing required argument"

/-- The CallToolRequestSchema handler switch.  The default branch throws
Unknown tool, which the catch block renders as an error string. -/
def handleTool (db : LawDb) (fts : FtsOracle) (name : String) (args : ToolArgs) : ToolResponse :=
  if name = "get_rcw" then
    match args.citation with
    | none => .errMsg missingArgMsg
    | some c =>
      match getRCW db.rcw c with
      | none => .notFoundMsg ("RCW " ++ c ++ " not found in database.")
      | some r => .ok (renderRCW r)
  else if name = "get_wac" then
    match args.citation with
    | none => .errMsg missingArgMsg
    | some c =>
      match getWAC db.wac c with
      | none => .notFoundMsg ("WAC " ++ c ++ " not found in database.")
      | some r => .ok (renderWAC r)
  else if name = "get_court_rule" then
    match args.ruleSet, args.ruleNumber with
    | some rs, some rn =>
      match getCourtRule db.courtRules rs rn with
      | none => .notFoundMsg (rs ++ " " ++ rn ++ " not found in database.")
      | some r => .ok (renderRule r)
    | _, _ => .errMsg missingArgMsg
  else if name = "list_court_rules" then
    match args.ruleSet with
    | some rs =>
      let rules := listCourtRules db.courtRules rs
      if rules.isEmpty then .notFoundMsg ("No rules found for " ++ rs)
      else .ok (renderRuleList rules)
    | none =>
      let rules := listAllCourtRules db.courtRules
      if rules.isEmpty then .notFoundMsg "No court rules found"
      else .ok (renderRuleList rules)
  else if name = "search_laws" then
    match args.query with
    | none => .errMsg missingArgMsg
    | some q =>
      let limit := match args.limit with
        | none => 20
        | some n => if n = 0 then 20 else n
      let results := searchLaws (fts.rcwHits q) (fts.wacHits q) (fts.crHits q) limit
      if results.isEmpty then .notFoundMsg ("No results found for query: \"" ++ q ++ "\"")
      else .ok (renderSearchResults q results)
  else if name = "list_rcw_titles" then
    .ok (renderTitles (listRCWTitles db.rcw))
  else if name = "list_rcw_chapters" then
    match args.titleNum with
    | none => .errMsg missingArgMsg
    | some t =>
      let chapters := listRCWChapters db.rcw t
      if chapters.isEmpty then .notFoundMsg ("No chapters found for Title " ++ t)
      else .ok (renderChapters t chapters)
  else if name = "list_rcw_sections" then
    match args.chapterNum with
    | none => .errMsg missingArgMsg
    | some c =>
      let sections := listRCWSections db.rcw c
      if sections.isEmpty then .notFoundMsg ("No sections found for Chapter " ++ c)
      else .ok (renderSections c sections)
  else if name = "get_statistics" then
    .ok (renderStats db)
  else
    .errMsg ("Error: Unknown tool: " ++ name)

/-- Claim C9: the exposed query surface is total: every call returns a found
record, a not-found indication, or an error string; an unknown tool name
yields the caught Unknown-tool error string; a court-rule lookup miss yields
the not-found message. -/
theorem handleTool_boundary (db : LawDb) (fts : FtsOracle) (name : String) (args : ToolArgs) :
    ((∃ t, handleTool db fts name args = ToolResponse.ok t) ∨
     (∃ t, handleTool db fts name args = ToolResponse.notFoundMsg t) ∨
     (∃ t, handleTool db fts name args = ToolResponse.errMsg t)) ∧
    (name ∉ knownTools →
      handleTool db fts name args = ToolResponse.errMsg ("Error: Unknown tool: " ++ name)) ∧
    (∀ rs rn, args.ruleSet = some rs → args.ruleNumber = some rn →
      getCourtRule db.courtRules rs rn = none →
      handleTool db fts "get_court_rule" args =
        ToolResponse.notFoundMsg (rs ++ " " ++ rn ++ " not found in database.")) := by
  refine ⟨?_, ?_, ?_⟩
  · cases h : handleTool db fts name args with
    | ok t => exact Or.inl ⟨t, rfl⟩
    | notFoundMsg t => exact Or.inr (Or.inl ⟨t, rfl⟩)
    | errMsg t => exact Or.inr (Or.inr ⟨t, rfl⟩)
  · intro hn
    have hne : ∀ s ∈ knownTools, name ≠ s := fun s hs he => hn (he ▸ hs)
    simp only [handleTool]
    rw [if_neg (hne _ (by decide)), if_neg (hne _ (by decide)), if_neg (hne _ (by decide)),
      if_neg (hne _ (by decide)), if_neg (hne _ (by decide)), if_neg (hne _ (by decide)),
      if_neg (hne _ (by decide)), if_neg (hne _ (by decide)), if_neg (hne _ (by decide))]
  · intro rs rn h1 h2 h3
    simp [handleTool, h1, h2, h3]

def emptyLawDb : LawDb := ⟨[], [], [], none⟩

def emptyOracle : FtsOracle := ⟨fun _ => [], fun _ => [], fun _ => []⟩

def argsCourtRule : ToolArgs := ⟨none, some "CRLJ", some "9.9", none, none, none, none⟩

theorem handleTool_boundary_witness :
    handleTool emptyLawDb emptyOracle "frobnicate_tool" argsCourtRule =
      ToolResponse.errMsg ("Error: Unknown tool: " ++ "frobnicate_tool") ∧
    handleTool emptyLawDb emptyOracle "get_court_rule" argsCourtRule =
      ToolResponse.notFoundMsg ("CRLJ" ++ " " ++ "9.9" ++ " not found in database.") := by
  constructor
  · exact (handleTool_boundary emptyLawDb emptyOracle "frobnicate_tool" argsCourtRule).2.1
      (by decide)
  · exact (handleTool_boundary emptyLawDb emptyOracle "get_court_rule" argsCourtRule).2.2
      "CRLJ" "9.9" rfl rfl (by decide)
